import Mathlib

/-!
Verification of the gosrt connection-establishment layer (`srt/dial.go` and
the address model in `srtsock.go`): a shallow embedding of the per-address
deadline allocator, the resolver's address-list filtering, the serial dial
loop, and the result-consumption loop of the parallel (Happy-Eyeballs) race,
together with theorems checking the documented behaviour.

Go `time.Time` values are modelled as `Option Int` (nanoseconds), with `none`
playing the role of Go's zero time (`IsZero`).  Go `net.IP` byte slices are
modelled as `List Nat`, with `[]` playing the role of a nil slice.  Fallible
Go functions returning `(value, error)` pairs are modelled with `Except`.
-/

deriving instance DecidableEq for Except

namespace GoSrt

/-- A Go `time.Time`: `none` is the zero time, `some t` is `t` nanoseconds. -/
def Time := Option Int

instance : DecidableEq Time := by unfold Time; infer_instance

/-- An abstract established connection handle (`net.Conn`); only identity
matters to the dial engine, which never inspects the handle it returns. -/
structure Conn where
  id : Nat
deriving DecidableEq

/-- The 12-byte prefix marking an IPv4-in-IPv6 address (`net.v4InV6Prefix`). -/
def v4InV6Prefix : List Nat := [0, 0, 0, 0, 0, 0, 0, 0, 0, 0, 255, 255]

/-- Embeds `net.IP.Equal`: family-insensitive byte comparison. -/
def ipEqual (ip x : List Nat) : Bool :=
  if ip.length = x.length then decide (ip = x)
  else if ip.length = 4 ∧ x.length = 16 then
    decide (x.take 12 = v4InV6Prefix ∧ ip = x.drop 12)
  else if ip.length = 16 ∧ x.length = 4 then
    decide (ip.take 12 = v4InV6Prefix ∧ ip.drop 12 = x)
  else false

/-- Embeds `net.IP.To4`: the 4-byte form, when the address is IPv4. -/
def ipTo4 (ip : List Nat) : Option (List Nat) :=
  if ip.length = 4 then some ip
  else if ip.length = 16 ∧ ip.take 12 = v4InV6Prefix then some (ip.drop 12)
  else none

/-- Embeds `net.IP.To16`: the 16-byte form, when the address is an IP. -/
def ipTo16 (ip : List Nat) : Option (List Nat) :=
  if ip.length = 4 then some (v4InV6Prefix ++ ip)
  else if ip.length = 16 then some ip
  else none

/-- Embeds `net.IP.IsUnspecified`: equal to `0.0.0.0` or to `::`. -/
def ipIsUnspecified (ip : List Nat) : Bool :=
  ipEqual ip [0, 0, 0, 0] || ipEqual ip (List.replicate 16 0)

/-- Embeds `SRTAddr` (srtsock.go): IP, port and IPv6 zone. -/
structure SRTAddr where
  IP : List Nat
  Port : Nat
  Zone : String
deriving DecidableEq

/-- Embeds `(*SRTAddr).isWildcard`.  The Go receiver may also be a nil
pointer (treated as wildcard); pointers are not modelled, and the nil IP
test `a.IP == nil` is the `a.IP = []` case here. -/
def SRTAddr.isWildcard (a : SRTAddr) : Bool :=
  if a.IP = [] then true else ipIsUnspecified a.IP

/-- Embeds `(*SRTAddr).matchAddrFamily`. -/
def SRTAddr.matchAddrFamily (a : SRTAddr) (x : List Nat) : Bool :=
  ((ipTo4 a.IP).isSome && (ipTo4 x).isSome) ||
    ((ipTo16 a.IP).isSome && !(ipTo4 a.IP).isSome &&
      (ipTo16 x).isSome && !(ipTo4 x).isSome)

/-- A `net.Addr` value: either a `*SRTAddr`, or some other address
implementation, characterised by its network name and string form. -/
inductive Addr where
  | srtAddr (a : SRTAddr)
  | other (network repr : String)
deriving DecidableEq

/-- Embeds `Addr.Network()`; `(*SRTAddr).Network()` always returns "srt". -/
def Addr.network : Addr → String
  | .srtAddr _ => "srt"
  | .other n _ => n

/-- The error values the dial layer produces.  Structured errors
(`net.OpError`, `net.AddrError`) keep their fields; `net.AddrError.Addr`
holds the structured address whose `String()` form Go would store, since
address formatting is orthogonal to the claims.  Errors of the low-level
connect collaborator are abstracted as `connectErr`. -/
inductive Err where
  | errTimeout
  | errMissingAddress
  | errCanceled
  | unknownNetwork (network : String)
  | addrError (err : String) (addr : Addr)
  | opError (op net : String) (source addr : Option Addr) (err : Err)
  | connectErr (code : Nat)
deriving DecidableEq

/-! ## Deadline allocator (`partialDeadline`, dial.go lines 100-122) -/

/-- `saneMinimum` from `partialDeadline`: 2 seconds in nanoseconds. -/
def saneMinimum : Int := 2000000000

/-- Embeds `partialDeadline(now, deadline, addrsRemaining)` from dial.go:
the deadline to use for a single address when multiple addresses are
pending.  Division of `time.Duration` values in Go is `int64` division,
truncating toward zero, hence `Int.tdiv`. -/
def perAddrDeadline (now : Int) (deadline : Time) (addrsRemaining : Nat) :
    Except Err Time :=
  match deadline with
  | none => .ok none
  | some d =>
    let timeRemaining := d - now
    if timeRemaining ≤ 0 then .error .errTimeout
    else
      let timeout := timeRemaining.tdiv addrsRemaining
      let timeout' :=
        if timeout < saneMinimum then
          if timeRemaining < saneMinimum then timeRemaining else saneMinimum
        else timeout
      .ok (some (now + timeout'))

/-- Modelled from the spec's words (§4.2), for comparison with
`perAddrDeadline`: the per-attempt budget is `timeRemaining / remainingCount`,
clamped up to exactly 2s when that quotient is below 2s and at least 2s
remain, or to the whole time remaining when less than 2s remain. -/
def specBudget (timeRemaining : Int) (remainingCount : Nat) : Int :=
  let q := timeRemaining.tdiv remainingCount
  if saneMinimum ≤ q then q
  else if saneMinimum ≤ timeRemaining then saneMinimum
  else timeRemaining

/-! ## Resolver (`parseNetwork` and `resolveAddrList`, dial.go lines 131-181) -/

/-- Embeds `parseNetwork` (dial.go): only "srt", "srt4" and "srt6" are
known networks.  The Go function also returns a protocol number, always 0,
dropped here. -/
def parseNetwork (network : String) : Except Err String :=
  if network = "srt" ∨ network = "srt4" ∨ network = "srt6" then .ok network
  else .error (.unknownNetwork network)

/-- The resolver state: `internetAddrList` is the name-lookup collaborator
(`internetAddrList` lives outside the analysed sources), taking the
validated network and the address string. -/
structure Resolver where
  internetAddrList : String → String → Except Err (List Addr)

/-- The `srt.IP` read in `resolveAddrList`'s filter loop.  When the hint was
not a `*SRTAddr`, `srt` is a nil pointer and the Go expression `srt.IP`
would panic; that branch is unreachable for SRT hints and is modelled as
the nil IP. -/
def hintIP : Option SRTAddr → List Nat
  | some s => s.IP
  | none => []

/-- Embeds the hint-filtering loop of `resolveAddrList` (dial.go lines
164-176): a candidate whose network differs from the hint's is a hard
"mismatched local address type" error; an `*SRTAddr` candidate is dropped
when the hint is not wildcard, the candidate is not wildcard, and the
families do not match; candidates of other dynamic types fall through the
type switch and are dropped silently. -/
def hintFilter (hintA : Addr) (srt : Option SRTAddr) (wildcard : Bool) :
    List Addr → Except Err (List Addr)
  | [] => .ok []
  | a :: rest =>
    if a.network ≠ hintA.network then
      .error (.addrError "mismatched local address type" hintA)
    else
      match a with
      | .srtAddr sa =>
        if !wildcard && !sa.isWildcard && !sa.matchAddrFamily (hintIP srt) then
          hintFilter hintA srt wildcard rest
        else
          match hintFilter hintA srt wildcard rest with
          | .error e => .error e
          | .ok ns => .ok (.srtAddr sa :: ns)
      | .other _ _ => hintFilter hintA srt wildcard rest

/-- Embeds `resolveAddrList` (dial.go lines 143-181).  The message of
`errNoSuitableAddress` ("no suitable address found") is the package-level
error value defined outside the analysed sources. -/
def resolveAddrList (r : Resolver) (op network addr : String)
    (hint : Option Addr) : Except Err (List Addr) :=
  match parseNetwork network with
  | .error e => .error e
  | .ok afnet =>
    if op = "dial" ∧ addr = "" then .error .errMissingAddress
    else
      match r.internetAddrList afnet addr with
      | .error e => .error e
      | .ok addrs =>
        if op ≠ "dial" then .ok addrs
        else
          match hint with
          | none => .ok addrs
          | some hintA =>
            let sw : Option SRTAddr × Bool :=
              match hintA with
              | .srtAddr a => (some a, a.isWildcard)
              | _ => (none, false)
            match hintFilter hintA sw.1 sw.2 addrs with
            | .error e => .error e
            | .ok naddrs =>
              if naddrs.length = 0 then
                .error (.addrError "no suitable address found" hintA)
              else .ok naddrs

/-- The predicate a candidate must satisfy to survive filtering against a
non-wildcard SRT hint `h`: it is itself a wildcard, or its family matches
the hint's IP. -/
def srtKeep (h : SRTAddr) : Addr → Bool
  | .srtAddr sa => sa.isWildcard || sa.matchAddrFamily h.IP
  | .other _ _ => false

/-! ## Serial dialing (`dialSerial`, dial.go lines 394-435) -/

/-- The dial parameters `dialSerial` reads: the network name and the
local address (`dp.LocalAddr`), used when wrapping errors. -/
structure DialParamM where
  network : String
  localAddr : Option Addr

/-- The environment one iteration of the `dialSerial` loop observes: whether
the context's done channel has already fired at the loop-head check, the
value of `time.Now()` when the per-address deadline is computed, and the
outcome of the `dialSingle` connect attempt (an oracle for the low-level
collaborator, indexed by iteration). -/
structure StepEnv where
  ctxDone : Bool
  now : Int
  attempt : Except Err Conn

/-- Embeds the loop of `dialSerial`.  `ctxErrM` is `mapErr(ctx.Err())`, the
mapped context error (the context internals are outside the analysed
sources); `ctxDl` is `ctx.Deadline()` (`none` when the context has no
deadline, Go's zero time); `total` is `len(ras)` and `i` the iteration
index, so the allocator sees `len(ras)-i` remaining addresses.  The derived
per-attempt context (`context.WithDeadline`) only influences the attempt's
outcome, which the oracle already carries. -/
def dialSerialLoop (ctxErrM : Err) (ctxDl : Time) (dp : DialParamM)
    (env : Nat → StepEnv) (total : Nat) :
    Nat → List Addr → Option Err → Option Conn × Option Err
  | _, [], firstErr => (none, firstErr)
  | i, ra :: rest, firstErr =>
    if (env i).ctxDone = true then
      (none, some (.opError "dial" dp.network dp.localAddr (some ra) ctxErrM))
    else
      match perAddrDeadline (env i).now ctxDl (total - i) with
      | .error e =>
        (none,
          match firstErr with
          | some fe => some fe
          | none => some (.opError "dial" dp.network dp.localAddr (some ra) e))
      | .ok _ =>
        match (env i).attempt with
        | .ok c => (some c, none)
        | .error e =>
          dialSerialLoop ctxErrM ctxDl dp env total (i + 1) rest
            (match firstErr with
             | some fe => some fe
             | none => some e)

/-- Embeds `dialSerial`: connects to a list of addresses in sequence,
returning either the first successful connection, or the first error;
with no error recorded, the returned error wraps `errMissingAddress`. -/
def dialSerial (ctxErrM : Err) (ctxDl : Time) (dp : DialParamM)
    (env : Nat → StepEnv) (ras : List Addr) : Option Conn × Option Err :=
  match dialSerialLoop ctxErrM ctxDl dp env ras.length 0 ras none with
  | (some c, _) => (some c, none)
  | (none, some e) => (none, some e)
  | (none, none) =>
    (none, some (.opError "dial" dp.network none none .errMissingAddress))

/-- Dial parameters used to instantiate the serial-dial theorems. -/
def dpW : DialParamM := ⟨"srt", none⟩

/-- An attempt environment in which every connect attempt fails with a
distinct error and the context never fires. -/
def envAllFail : Nat → StepEnv := fun i => ⟨false, 0, .error (.connectErr i)⟩

/-- An attempt environment in which the first connect attempt succeeds. -/
def envOkFirst : Nat → StepEnv := fun _ => ⟨false, 0, .ok ⟨5⟩⟩

/-! ## Parallel dialing (`dialParallel`, dial.go lines 318-392)

`dialParallel` races two `dialSerial` calls communicating over an
unbuffered result channel, with a timer gating the fallback racer.  The
loop body is sequential code: it is embedded as a function over the
sequence of select wake-ups (timer fire or delivered result) the loop
consumes. -/

/-- Embeds `dialResult`: one racing branch's report. -/
structure DialResultR where
  conn : Option Conn
  err : Option Err
  primary : Bool
  done : Bool
deriving DecidableEq

/-- The Go zero value of `dialResult`, initialising the `primary` and
`fallback` loop variables. -/
def zeroResult : DialResultR := ⟨none, none, false, false⟩

/-- One wake-up of the `dialParallel` select loop: either the fallback
timer fires (starting the fallback racer), or a racer delivers a result. -/
inductive REvent where
  | timer
  | res (r : DialResultR)
deriving DecidableEq

/-- Embeds the result-consumption loop of `dialParallel` (dial.go lines
364-391) over the sequence of select wake-ups: `Sum.inl` is the function's
return value once the loop returns; `Sum.inr` is the current
`(primary, fallback)` loop state when the wake-ups are exhausted with the
loop still running.  The timer bookkeeping (`Stop`/`Reset`) only
influences which wake-ups can occur, which the event list carries. -/
def raceLoop : List REvent → DialResultR → DialResultR →
    Sum (Option Conn × Option Err) (DialResultR × DialResultR)
  | [], p, f => .inr (p, f)
  | .timer :: evs, p, f => raceLoop evs p f
  | .res r :: evs, p, f =>
    if r.err = none then .inl (r.conn, none)
    else
      let p' := if r.primary then r else p
      let f' := if r.primary then f else r
      if p'.done ∧ f'.done then .inl (none, p'.err)
      else raceLoop evs p' f'

/-- The observable racer-start actions of one `dialParallel` invocation. -/
inductive RaceAction where
  | primaryStart
  | fallbackStart
deriving DecidableEq

/-- The racer-start actions performed while consuming the wake-ups: a
fallback racer is started exactly when a timer fire is consumed, and
consumption stops once the loop returns. -/
def raceLoopActions : List REvent → DialResultR → DialResultR → List RaceAction
  | [], _, _ => []
  | .timer :: evs, p, f => .fallbackStart :: raceLoopActions evs p f
  | .res r :: evs, p, f =>
    if r.err = none then []
    else
      let p' := if r.primary then r else p
      let f' := if r.primary then f else r
      if p'.done ∧ f'.done then []
      else raceLoopActions evs p' f'

/-- Embeds the start structure of `dialParallel`: the primary racer is
started (dial.go line 358) before the select loop that may start the
fallback racer. -/
def dialParallelActions (evs : List REvent) : List RaceAction :=
  .primaryStart :: raceLoopActions evs zeroResult zeroResult

/-- A timed select wake-up: the instant at which it is consumed, in
nanoseconds from the start of `dialParallel`, and the wake-up itself. -/
structure TEvent where
  t : Int
  ev : REvent

/-- The timed consumption loop, tracking the instant at which the fallback
timer is currently scheduled to fire: initially the fallback delay,
re-scheduled to the current instant by `fallbackTimer.Reset(0)` when a
primary failure is consumed while the timer is still pending (the `Stop()`
guard holds on every path that continues the loop, since consumption stops
at the first timer fire).  Returns the instant at which the fallback racer
is started, if it ever is. -/
def timedRace : List TEvent → Int → DialResultR → DialResultR → Option Int
  | [], _, _, _ => none
  | ⟨t, .timer⟩ :: _, _, _, _ => some t
  | ⟨t, .res r⟩ :: evs, sched, p, f =>
    if r.err = none then none
    else
      let p' := if r.primary then r else p
      let f' := if r.primary then f else r
      if p'.done ∧ f'.done then none
      else timedRace evs (if r.primary then t else sched) p' f'

/-- The contract of `time.Timer` over a timed wake-up sequence: the timer
fire is consumed no earlier than its scheduled instant, the schedule
evolving exactly as in `timedRace`. -/
def timerValid : List TEvent → Int → DialResultR → DialResultR → Prop
  | [], _, _, _ => True
  | ⟨t, .timer⟩ :: _, sched, _, _ => sched ≤ t
  | ⟨t, .res r⟩ :: evs, sched, p, f =>
    if r.err = none then True
    else
      let p' := if r.primary then r else p
      let f' := if r.primary then f else r
      if p'.done ∧ f'.done then True
      else timerValid evs (if r.primary then t else sched) p' f'

/-- No primary failure is consumed strictly before the first timer fire. -/
def noPrimaryFailureBeforeTimer : List TEvent → Prop
  | [] => True
  | ⟨_, .timer⟩ :: _ => True
  | ⟨_, .res r⟩ :: evs =>
    ¬(r.primary = true ∧ r.err ≠ none) ∧ noPrimaryFailureBeforeTimer evs

/-- A completed failing primary result. -/
def resFailP : DialResultR := ⟨none, some (.connectErr 7), true, true⟩

/-- A completed failing fallback result. -/
def resFailF : DialResultR := ⟨none, some (.connectErr 8), false, true⟩

/-- A completed successful fallback result. -/
def resOkF : DialResultR := ⟨some ⟨9⟩, none, false, true⟩

/-! Concrete fixtures used to instantiate the theorems. -/

/-- A concrete IPv4 endpoint. -/
def addr4a : SRTAddr := ⟨[10, 0, 0, 1], 9000, ""⟩

/-- A second concrete IPv4 endpoint. -/
def addr4b : SRTAddr := ⟨[10, 0, 0, 2], 9000, ""⟩

/-- A concrete (non-wildcard) IPv6 endpoint. -/
def addr6a : SRTAddr := ⟨List.replicate 16 1, 9000, ""⟩

/-- A concrete wildcard IPv6 endpoint (`::`). -/
def wildcard6 : SRTAddr := ⟨List.replicate 16 0, 9000, ""⟩

/-- A concrete non-wildcard IPv4 local-address hint. -/
def hint4 : SRTAddr := ⟨[192, 168, 0, 1], 0, ""⟩

/-- A concrete mixed-family candidate list. -/
def sampleList : List Addr := [.srtAddr addr4a, .srtAddr addr6a, .srtAddr addr4b]

/-- A resolver whose lookup collaborator always yields `sampleList`. -/
def sampleResolver : Resolver := ⟨fun _ _ => .ok sampleList⟩

/-- A candidate list containing a wildcard endpoint of the mismatching family. -/
def sampleListW : List Addr := [.srtAddr addr4a, .srtAddr wildcard6, .srtAddr addr6a]

/-- A resolver whose lookup collaborator always yields `sampleListW`. -/
def sampleResolverW : Resolver := ⟨fun _ _ => .ok sampleListW⟩

end GoSrt

namespace GoSrt

theorem hintFilter_all_srt (h : SRTAddr) (w : Bool) :
    ∀ addrs : List Addr, (∀ a ∈ addrs, ∃ sa, a = .srtAddr sa) →
      hintFilter (.srtAddr h) (some h) w addrs =
        .ok (addrs.filter (fun a => w || srtKeep h a))
  | [], _ => rfl
  | a :: rest, hall => by
    obtain ⟨sa, rfl⟩ := hall a (List.mem_cons_self a rest)
    have ih := hintFilter_all_srt h w rest
      (fun a ha => hall a (List.mem_cons_of_mem _ ha))
    simp only [hintFilter, Addr.network, ne_eq, not_true_eq_false, if_false,
      List.filter_cons]
    cases hb : (w || srtKeep h (Addr.srtAddr sa)) with
    | false =>
      have hw : w = false := by
        cases w with
        | true => simp at hb
        | false => rfl
      subst hw
      have hk : sa.isWildcard = false ∧ sa.matchAddrFamily h.IP = false := by
        simpa [srtKeep] using hb
      simp [hk.1, hk.2, ih, hintIP]
    | true =>
      have hcond :
          (!w && !sa.isWildcard && !sa.matchAddrFamily (hintIP (some h))) = false := by
        simp only [hintIP]
        cases w with
        | true => simp
        | false =>
          simp only [srtKeep, Bool.false_or] at hb
          rcases Bool.or_eq_true_iff.mp hb with h1 | h1 <;> simp [h1]
      rw [hcond]
      simp [ih]

theorem hintFilter_mismatch (hintA : Addr) (srt : Option SRTAddr) (w : Bool) :
    ∀ addrs : List Addr, (∃ a ∈ addrs, a.network ≠ hintA.network) →
      hintFilter hintA srt w addrs =
        .error (.addrError "mismatched local address type" hintA)
  | [], hex => by simp at hex
  | a :: rest, hex => by
    by_cases hne : a.network ≠ hintA.network
    · simp [hintFilter, hne]
    · have hrest : ∃ b ∈ rest, b.network ≠ hintA.network := by
        rcases hex with ⟨b, hb, hbne⟩
        rcases List.mem_cons.mp hb with rfl | hb'
        · exact absurd hbne hne
        · exact ⟨b, hb', hbne⟩
      have ih := hintFilter_mismatch hintA srt w rest hrest
      cases a with
      | srtAddr sa =>
        simp only [hintFilter, hne, if_false]
        cases hsk : (!w && !sa.isWildcard && !sa.matchAddrFamily (hintIP srt)) with
        | true => simpa [hsk] using ih
        | false => simp [hsk, ih]
      | other n s => simp [hintFilter, hne, ih]

theorem resolveAddrList_srt_hint_eq (r : Resolver) (network addr : String)
    (addrs : List Addr) (h : SRTAddr)
    (hnet : network = "srt" ∨ network = "srt4" ∨ network = "srt6")
    (haddr : addr ≠ "")
    (hlook : r.internetAddrList network addr = .ok addrs) :
    resolveAddrList r "dial" network addr (some (.srtAddr h)) =
      match hintFilter (.srtAddr h) (some h) h.isWildcard addrs with
      | .error e => .error e
      | .ok naddrs =>
        if naddrs.length = 0 then
          .error (.addrError "no suitable address found" (.srtAddr h))
        else .ok naddrs := by
  simp only [resolveAddrList, parseNetwork, hnet, if_true, haddr, and_false,
    if_false, hlook]
  simp

/-- C3: with a supplied non-wildcard SRT hint, `resolveAddrList` in dial
mode keeps exactly the candidates that are wildcard or family-matching, in
order, failing with `NoSuitableAddress` when none survive; a candidate of a
different network kind is a hard mismatched-address-type error; and with a
wildcard hint the candidate list passes through unchanged. -/
theorem resolveAddrList_hint_filtering (r : Resolver) (network addr : String)
    (addrs : List Addr) (h : SRTAddr)
    (hnet : network = "srt" ∨ network = "srt4" ∨ network = "srt6")
    (haddr : addr ≠ "")
    (hlook : r.internetAddrList network addr = .ok addrs) :
    ((∀ a ∈ addrs, ∃ sa, a = .srtAddr sa) → h.isWildcard = false →
      resolveAddrList r "dial" network addr (some (.srtAddr h)) =
        if (addrs.filter (srtKeep h)).length = 0 then
          .error (.addrError "no suitable address found" (.srtAddr h))
        else .ok (addrs.filter (srtKeep h)))
    ∧ ((∀ a ∈ addrs, ∃ sa, a = .srtAddr sa) → h.isWildcard = true →
        addrs ≠ [] →
        resolveAddrList r "dial" network addr (some (.srtAddr h)) = .ok addrs)
    ∧ ((∃ a ∈ addrs, Addr.network a ≠ "srt") →
        resolveAddrList r "dial" network addr (some (.srtAddr h)) =
          .error (.addrError "mismatched local address type" (.srtAddr h))) := by
  refine ⟨?_, ?_, ?_⟩
  · intro hall hw
    rw [resolveAddrList_srt_hint_eq r network addr addrs h hnet haddr hlook,
      hintFilter_all_srt h h.isWildcard addrs hall, hw]
    simp only [Bool.false_or]
  · intro hall hw hne
    rw [resolveAddrList_srt_hint_eq r network addr addrs h hnet haddr hlook,
      hintFilter_all_srt h h.isWildcard addrs hall, hw]
    simp only [Bool.true_or, List.filter_true]
    have : addrs.length ≠ 0 := by
      simpa [List.length_eq_zero] using hne
    simp [this]
  · intro hex
    rw [resolveAddrList_srt_hint_eq r network addr addrs h hnet haddr hlook,
      hintFilter_mismatch (.srtAddr h) (some h) h.isWildcard addrs
        (by simpa [Addr.network] using hex)]

/-- Witness for C3: against the mixed-family `sampleList` and a
non-wildcard IPv4 hint, the IPv6-only candidate is dropped and the two
IPv4 candidates survive in order. -/
theorem resolveAddrList_hint_filtering_witness :
    resolveAddrList sampleResolver "dial" "srt" "example.com:9000"
        (some (.srtAddr hint4)) = .ok [.srtAddr addr4a, .srtAddr addr4b] := by
  have hall : ∀ a ∈ sampleList, ∃ sa, a = Addr.srtAddr sa := by
    intro a ha
    simp only [sampleList, List.mem_cons, List.not_mem_nil, or_false] at ha
    rcases ha with rfl | rfl | rfl <;> exact ⟨_, rfl⟩
  have h := (resolveAddrList_hint_filtering sampleResolver "srt"
    "example.com:9000" sampleList hint4 (Or.inl rfl) (by decide) rfl).1
    hall (by decide)
  rw [h]
  decide

/-- C5: a network name other than "srt", "srt4", "srt6" fails with
`UnknownNetwork`, and in dial mode an empty address string fails with
`MissingAddress`. -/
theorem resolveAddrList_validation (r : Resolver) (op network addr : String)
    (hint : Option Addr) :
    (¬(network = "srt" ∨ network = "srt4" ∨ network = "srt6") →
      resolveAddrList r op network addr hint = .error (.unknownNetwork network))
    ∧ ((network = "srt" ∨ network = "srt4" ∨ network = "srt6") →
      resolveAddrList r "dial" network "" hint = .error .errMissingAddress) := by
  constructor
  · intro hnot
    simp [resolveAddrList, parseNetwork, hnot]
  · intro hnet
    simp [resolveAddrList, parseNetwork, hnet]

/-- Witness for C5: "udp" is rejected as an unknown network, and a dial
with an empty address fails with the missing-address error. -/
theorem resolveAddrList_validation_witness :
    resolveAddrList sampleResolver "dial" "udp" "x" none =
        .error (.unknownNetwork "udp")
    ∧ resolveAddrList sampleResolver "dial" "srt" "" none =
        .error .errMissingAddress :=
  ⟨(resolveAddrList_validation sampleResolver "dial" "udp" "x" none).1
      (by decide),
    (resolveAddrList_validation sampleResolver "dial" "srt" "" none).2
      (Or.inl rfl)⟩

/-- C6: whenever `resolveAddrList` succeeds, the returned list is
non-empty, given the documented contract of the lookup collaborator
(`internetAddrList` never succeeds with an empty list). -/
theorem resolveAddrList_nonempty_on_success (r : Resolver)
    (hr : ∀ n a l, r.internetAddrList n a = .ok l → l ≠ [])
    (op network addr : String) (hint : Option Addr) (res : List Addr)
    (hres : resolveAddrList r op network addr hint = .ok res) : res ≠ [] := by
  simp only [resolveAddrList] at hres
  cases hpn : parseNetwork network with
  | error e => rw [hpn] at hres; simp at hres
  | ok afnet =>
    rw [hpn] at hres
    simp only at hres
    by_cases hma : op = "dial" ∧ addr = ""
    · rw [if_pos hma] at hres; simp at hres
    · rw [if_neg hma] at hres
      cases hla : r.internetAddrList afnet addr with
      | error e => rw [hla] at hres; simp at hres
      | ok addrs =>
        rw [hla] at hres
        have hne := hr afnet addr addrs hla
        simp only at hres
        by_cases hop : op ≠ "dial"
        · rw [if_pos hop] at hres
          cases hres
          exact hne
        · rw [if_neg hop] at hres
          cases hint with
          | none => cases hres; exact hne
          | some hintA =>
            simp only at hres
            cases hf : hintFilter hintA
                (match hintA with
                  | .srtAddr a => ((some a : Option SRTAddr), a.isWildcard)
                  | _ => (none, false)).1
                (match hintA with
                  | .srtAddr a => ((some a : Option SRTAddr), a.isWildcard)
                  | _ => (none, false)).2 addrs with
            | error e => rw [hf] at hres; simp at hres
            | ok naddrs =>
              rw [hf] at hres
              simp only at hres
              by_cases hlen : naddrs.length = 0
              · rw [if_pos hlen] at hres; simp at hres
              · rw [if_neg hlen] at hres
                cases hres
                simpa [List.length_eq_zero] using hlen

/-- Witness for C6: the sample resolver satisfies the lookup contract, and
a successful listen-mode resolution yields the (non-empty) sample list. -/
theorem resolveAddrList_nonempty_on_success_witness :
    (sampleList : List Addr) ≠ [] :=
  resolveAddrList_nonempty_on_success sampleResolver
    (by intro n a l hl; cases hl; simp [sampleList])
    "listen" "srt" "x" none sampleList rfl

/-- C9: during hint filtering against a non-wildcard hint, a wildcard
candidate is always retained even when its family mismatches; a candidate
is dropped only when it is both non-wildcard and family-mismatched. -/
theorem resolveAddrList_wildcard_retained (r : Resolver)
    (network addr : String) (addrs : List Addr) (h : SRTAddr)
    (res : List Addr)
    (hnet : network = "srt" ∨ network = "srt4" ∨ network = "srt6")
    (haddr : addr ≠ "")
    (hlook : r.internetAddrList network addr = .ok addrs)
    (hall : ∀ a ∈ addrs, ∃ sa, a = .srtAddr sa)
    (hw : h.isWildcard = false)
    (hres : resolveAddrList r "dial" network addr (some (.srtAddr h)) = .ok res) :
    (∀ sa : SRTAddr, Addr.srtAddr sa ∈ addrs → sa.isWildcard = true →
      Addr.srtAddr sa ∈ res)
    ∧ (∀ sa : SRTAddr, Addr.srtAddr sa ∈ addrs → Addr.srtAddr sa ∉ res →
      sa.isWildcard = false ∧ sa.matchAddrFamily h.IP = false) := by
  have heq := (resolveAddrList_hint_filtering r network addr addrs h hnet
    haddr hlook).1 hall hw
  rw [heq] at hres
  by_cases hlen : (addrs.filter (srtKeep h)).length = 0
  · rw [if_pos hlen] at hres; simp at hres
  · rw [if_neg hlen] at hres
    cases hres
    constructor
    · intro sa hmem hwild
      refine List.mem_filter.mpr ⟨hmem, ?_⟩
      simp [srtKeep, hwild]
    · intro sa hmem hnmem
      have : ¬(srtKeep h (Addr.srtAddr sa) = true) := by
        intro hk
        exact hnmem (List.mem_filter.mpr ⟨hmem, hk⟩)
      simpa [srtKeep] using this

/-- Witness for C9: the wildcard IPv6 candidate `::` survives filtering
against an IPv4 hint, while the non-wildcard IPv6 candidate is dropped
because it is non-wildcard and family-mismatched. -/
theorem resolveAddrList_wildcard_retained_witness :
    Addr.srtAddr wildcard6 ∈ ([.srtAddr addr4a, .srtAddr wildcard6] : List Addr)
    ∧ addr6a.isWildcard = false ∧ addr6a.matchAddrFamily hint4.IP = false := by
  have hall : ∀ a ∈ sampleListW, ∃ sa, a = Addr.srtAddr sa := by
    intro a ha
    simp only [sampleListW, List.mem_cons, List.not_mem_nil, or_false] at ha
    rcases ha with rfl | rfl | rfl <;> exact ⟨_, rfl⟩
  have h := resolveAddrList_wildcard_retained sampleResolverW "srt" "x"
    sampleListW hint4 [.srtAddr addr4a, .srtAddr wildcard6]
    (Or.inl rfl) (by decide) rfl hall (by decide) (by decide)
  exact ⟨h.1 wildcard6 (by decide) (by decide),
    h.2 addr6a (by decide) (by decide)⟩

end GoSrt

namespace GoSrt

/-- C1: `partialDeadline` returns an unset deadline and no error when the
overall deadline is unset; a `Timeout` error when no time remains; and
otherwise `now + budget`, with the budget the even share clamped up to 2s
(or to the whole remaining time when under 2s remains). -/
theorem perAddrDeadline_spec (now : Int) (k : Nat) (_hk : 0 < k) :
    perAddrDeadline now none k = .ok none
    ∧ (∀ d : Int, d - now ≤ 0 →
        perAddrDeadline now (some d) k = .error .errTimeout)
    ∧ ∀ d : Int, 0 < d - now →
        perAddrDeadline now (some d) k = .ok (some (now + specBudget (d - now) k)) := by
  refine ⟨rfl, ?_, ?_⟩
  · intro d hd
    simp [perAddrDeadline, hd]
  · intro d hd
    have hnot : ¬ d - now ≤ 0 := by omega
    simp only [perAddrDeadline, hnot, if_false, specBudget]
    congr 2
    set q := (d - now).tdiv k with hq
    by_cases h1 : q < saneMinimum
    · by_cases h2 : d - now < saneMinimum <;> simp [h1, h2] <;> omega
    · simp [h1]
      omega

/-- Witness for C1: the spec's concrete table — 10s over 4 addresses gives
a 2.5s budget, 3s over 4 clamps to 2s, and an already-passed deadline is a
timeout. -/
theorem perAddrDeadline_spec_witness :
    perAddrDeadline 0 (some 10000000000) 4 = .ok (some 2500000000)
    ∧ perAddrDeadline 0 (some 3000000000) 4 = .ok (some 2000000000)
    ∧ perAddrDeadline 0 (some (-1000000000)) 1 = .error .errTimeout := by
  have h10 := (perAddrDeadline_spec 0 4 (by decide)).2.2 10000000000 (by decide)
  have h3 := (perAddrDeadline_spec 0 4 (by decide)).2.2 3000000000 (by decide)
  have hneg := (perAddrDeadline_spec 0 1 (by decide)).2.1 (-1000000000) (by decide)
  refine ⟨?_, ?_, hneg⟩
  · rw [h10]; decide
  · rw [h3]; decide

theorem dialSerialLoop_all_fail (ctxErrM : Err) (ctxDl : Time)
    (dp : DialParamM) (env : Nat → StepEnv) (total : Nat)
    (hdone : ∀ i, (env i).ctxDone = false)
    (hfail : ∀ i, ∃ e, (env i).attempt = .error e) :
    ∀ (l : List Addr) (i : Nat) (fe : Err),
      dialSerialLoop ctxErrM ctxDl dp env total i l (some fe) = (none, some fe)
  | [], _, _ => rfl
  | ra :: rest, i, fe => by
    obtain ⟨e, he⟩ := hfail i
    simp only [dialSerialLoop, hdone i, Bool.false_eq_true, if_false]
    cases hpd : perAddrDeadline (env i).now ctxDl (total - i) with
    | error e2 => rfl
    | ok t =>
      rw [he]
      exact dialSerialLoop_all_fail ctxErrM ctxDl dp env total hdone hfail
        rest (i + 1) fe

theorem dialSerialLoop_success (ctxErrM : Err) (ctxDl : Time)
    (dp : DialParamM) (env : Nat → StepEnv) (total : Nat) :
    ∀ (l : List Addr) (i j : Nat) (fe : Option Err) (c : Conn),
      j < l.length →
      (∀ k, k < j →
        (env (i + k)).ctxDone = false ∧
        (∃ t, perAddrDeadline (env (i + k)).now ctxDl (total - (i + k)) = .ok t) ∧
        (∃ e, (env (i + k)).attempt = .error e)) →
      (env (i + j)).ctxDone = false →
      (∃ t, perAddrDeadline (env (i + j)).now ctxDl (total - (i + j)) = .ok t) →
      (env (i + j)).attempt = .ok c →
      dialSerialLoop ctxErrM ctxDl dp env total i l fe = (some c, none)
  | [], _, _, _, _, hj, _, _, _, _ => absurd hj (by simp)
  | ra :: rest, i, j, fe, c, hj, hpre, hd, hpd, hat => by
    cases j with
    | zero =>
      simp only [Nat.add_zero] at hd hpd hat
      obtain ⟨t, hpd⟩ := hpd
      simp only [dialSerialLoop, hd, Bool.false_eq_true, if_false, hpd, hat]
    | succ j =>
      obtain ⟨hd0, ⟨t0, hpd0⟩, ⟨e0, hat0⟩⟩ := hpre 0 (Nat.succ_pos j)
      simp only [Nat.add_zero] at hd0 hpd0 hat0
      simp only [dialSerialLoop, hd0, Bool.false_eq_true, if_false, hpd0, hat0]
      refine dialSerialLoop_success ctxErrM ctxDl dp env total rest (i + 1) j _ c
        (by simpa using Nat.lt_of_succ_lt_succ hj) ?_ ?_ ?_ ?_
      · intro k hk
        have h2 := hpre (k + 1) (Nat.succ_lt_succ hk)
        rwa [show i + (k + 1) = i + 1 + k by omega] at h2
      · rwa [show i + (j + 1) = i + 1 + j by omega] at hd
      · rwa [show i + (j + 1) = i + 1 + j by omega] at hpd
      · rwa [show i + (j + 1) = i + 1 + j by omega] at hat

/-- C2: on a non-empty candidate list with a quiescent context, when every
connect attempt fails — including when the deadline allocator reports
exhaustion partway through — `dialSerial` returns no connection and the
error produced for the first candidate (the wrapped allocator timeout if
the allocator fails immediately, otherwise the first attempt's error),
regardless of later candidates' errors; and the first success is returned
immediately, independently of everything after it. -/
theorem dialSerial_first_error_wins (ctxErrM : Err) (ctxDl : Time)
    (dp : DialParamM) (env : Nat → StepEnv) (ra : Addr) (rest : List Addr)
    (hdone : ∀ i, (env i).ctxDone = false) :
    ((∀ i, ∃ e, (env i).attempt = .error e) →
      ∀ e0, (env 0).attempt = .error e0 →
      dialSerial ctxErrM ctxDl dp env (ra :: rest) =
        (none, some
          (match perAddrDeadline (env 0).now ctxDl (rest.length + 1) with
           | .error te => .opError "dial" dp.network dp.localAddr (some ra) te
           | .ok _ => e0)))
    ∧ (∀ j c, j < (ra :: rest).length →
        (∀ k, k < j →
          (∃ t, perAddrDeadline (env k).now ctxDl (rest.length + 1 - k) = .ok t) ∧
          (∃ e, (env k).attempt = .error e)) →
        (∃ t, perAddrDeadline (env j).now ctxDl (rest.length + 1 - j) = .ok t) →
        (env j).attempt = .ok c →
        dialSerial ctxErrM ctxDl dp env (ra :: rest) = (some c, none)) := by
  constructor
  · intro hfail e0 he0
    have hloop : dialSerialLoop ctxErrM ctxDl dp env (ra :: rest).length 0
        (ra :: rest) none =
        (none, some
          (match perAddrDeadline (env 0).now ctxDl (rest.length + 1) with
           | .error te => Err.opError "dial" dp.network dp.localAddr (some ra) te
           | .ok _ => e0)) := by
      simp only [dialSerialLoop, hdone 0, Bool.false_eq_true, if_false,
        List.length_cons, Nat.sub_zero]
      cases hpd : perAddrDeadline (env 0).now ctxDl (rest.length + 1) with
      | error te => rfl
      | ok t =>
        rw [he0]
        exact dialSerialLoop_all_fail ctxErrM ctxDl dp env _ hdone hfail rest 1 e0
    simp only [dialSerial, hloop]
  · intro j c hj hpre hpd hat
    have hloop := dialSerialLoop_success ctxErrM ctxDl dp env
      (ra :: rest).length (ra :: rest) 0 j none c hj
      (fun k hk => by
        rw [Nat.zero_add]
        exact ⟨hdone k, (hpre k hk).1, (hpre k hk).2⟩)
      (by rw [Nat.zero_add]; exact hdone j)
      (by rw [Nat.zero_add]; exact hpd)
      (by rw [Nat.zero_add]; exact hat)
    simp only [dialSerial, hloop]

/-- Witness for C2: with two candidates and every attempt failing, the
first attempt's error is returned; with the first attempt succeeding, its
connection is returned. -/
theorem dialSerial_first_error_wins_witness :
    dialSerial .errCanceled none dpW envAllFail
        [.srtAddr addr4a, .srtAddr addr4b] = (none, some (.connectErr 0))
    ∧ dialSerial .errCanceled none dpW envOkFirst
        [.srtAddr addr4a, .srtAddr addr4b] = (some ⟨5⟩, none) := by
  constructor
  · exact (dialSerial_first_error_wins .errCanceled none dpW envAllFail
      (.srtAddr addr4a) [.srtAddr addr4b] (fun _ => rfl)).1
      (fun i => ⟨.connectErr i, rfl⟩) (.connectErr 0) rfl
  · exact (dialSerial_first_error_wins .errCanceled none dpW envOkFirst
      (.srtAddr addr4a) [.srtAddr addr4b] (fun _ => rfl)).2 0 ⟨5⟩
      (by simp) (fun k hk => absurd hk (Nat.not_lt_zero k)) ⟨none, rfl⟩ rfl

/-- C10: called with an empty candidate list, `dialSerial` returns a nil
connection and an `OpError` wrapping `errMissingAddress` (for any context
state), and in particular never a nil connection with a nil error. -/
theorem dialSerial_empty_list (ctxErrM : Err) (ctxDl : Time)
    (dp : DialParamM) (env : Nat → StepEnv) :
    dialSerial ctxErrM ctxDl dp env [] =
      (none, some (.opError "dial" dp.network none none .errMissingAddress))
    ∧ dialSerial ctxErrM ctxDl dp env [] ≠
      ((none : Option Conn), (none : Option Err)) := by
  refine ⟨rfl, ?_⟩
  intro h
  simp [dialSerial, dialSerialLoop] at h

theorem raceLoop_append :
    ∀ (xs ys : List REvent) (p f : DialResultR),
      raceLoop (xs ++ ys) p f =
        match raceLoop xs p f with
        | .inl a => .inl a
        | .inr s => raceLoop ys s.1 s.2
  | [], _, _, _ => rfl
  | .timer :: xs, ys, p, f => by
    simp only [List.cons_append, raceLoop]
    exact raceLoop_append xs ys p f
  | .res r :: xs, ys, p, f => by
    simp only [List.cons_append, raceLoop]
    by_cases h1 : r.err = none
    · simp [h1]
    · simp only [h1, if_false]
      by_cases h2 :
          ((if r.primary then r else p).done ∧ (if r.primary then f else r).done)
      · simp [h2]
      · simp only [h2, if_false]
        exact raceLoop_append xs ys _ _

/-- C4: among the results consumed by the `dialParallel` loop, the first
carrying no error is returned to the caller at once, whatever wake-ups
follow; and when a result completes the second of the two branches with an
error, the primary branch's error is returned and the fallback branch's
error is discarded. -/
theorem dialParallel_result_selection (evs1 evs2 : List REvent)
    (p f r : DialResultR)
    (hrun : raceLoop evs1 zeroResult zeroResult = .inr (p, f)) :
    (r.err = none →
      raceLoop (evs1 ++ .res r :: evs2) zeroResult zeroResult =
        .inl (r.conn, none))
    ∧ (r.err ≠ none → r.done = true →
      (if r.primary = true then f.done else p.done) = true →
      raceLoop (evs1 ++ .res r :: evs2) zeroResult zeroResult =
        .inl (none, (if r.primary = true then r else p).err)) := by
  constructor
  · intro he
    rw [raceLoop_append, hrun]
    simp [raceLoop, he]
  · intro he hdone hother
    rw [raceLoop_append, hrun]
    cases hrp : r.primary with
    | true =>
      rw [hrp] at hother
      simp only [if_pos] at hother
      simp [raceLoop, he, hrp, hdone, hother]
    | false =>
      rw [hrp] at hother
      simp only [Bool.false_eq_true, if_false] at hother
      simp [raceLoop, he, hrp, hdone, hother]

/-- Witness for C4: a successful fallback result ends the race with its
connection; after a failing primary result, a failing fallback result ends
the race with the primary's error, not the fallback's. -/
theorem dialParallel_result_selection_witness :
    raceLoop [.res resOkF] zeroResult zeroResult = .inl (some ⟨9⟩, none)
    ∧ raceLoop [.res resFailP, .res resFailF] zeroResult zeroResult =
        .inl (none, some (.connectErr 7)) := by
  constructor
  · exact (dialParallel_result_selection [] [] zeroResult zeroResult resOkF
      rfl).1 rfl
  · exact (dialParallel_result_selection [.res resFailP] [] resFailP
      zeroResult resFailF (by decide)).2 (by decide) rfl (by decide)

theorem timedRace_bound :
    ∀ (evs : List TEvent) (sched delay : Int) (p f : DialResultR) (ts : Int),
      delay ≤ sched → timerValid evs sched p f →
      noPrimaryFailureBeforeTimer evs →
      timedRace evs sched p f = some ts → delay ≤ ts
  | [], _, _, _, _, _, _, _, _, heq => by simp [timedRace] at heq
  | ⟨t, .timer⟩ :: evs, sched, delay, p, f, ts, hds, hv, _, heq => by
    simp only [timedRace, Option.some.injEq] at heq
    subst heq
    exact le_trans hds hv
  | ⟨t, .res r⟩ :: evs, sched, delay, p, f, ts, hds, hv, hnp, heq => by
    obtain ⟨hnr, hnp'⟩ := hnp
    simp only [timedRace] at heq
    simp only [timerValid] at hv
    by_cases he : r.err = none
    · rw [if_pos he] at heq; cases heq
    · rw [if_neg he] at heq hv
      by_cases hdone :
          ((if r.primary then r else p).done ∧ (if r.primary then f else r).done)
      · rw [if_pos hdone] at heq; cases heq
      · rw [if_neg hdone] at heq hv
        have hrp : r.primary = false := by
          cases hb : r.primary
          · rfl
          · exact absurd ⟨hb, he⟩ hnr
        rw [hrp] at heq hv
        simp only [Bool.false_eq_true, if_neg (by trivial : ¬False)] at heq hv
        exact timedRace_bound evs sched delay _ _ ts hds hv hnp' heq

/-- C7: in a parallel race, a fallback racer whose start is observed at
some instant never starts strictly before the fallback delay has elapsed
unless a primary failure was consumed first; and the primary racer is
started before any fallback start. -/
theorem dialParallel_fallback_head_start :
    (∀ (delay : Int) (evs : List TEvent) (ts : Int),
      timerValid evs delay zeroResult zeroResult →
      noPrimaryFailureBeforeTimer evs →
      timedRace evs delay zeroResult zeroResult = some ts →
      delay ≤ ts)
    ∧ ∀ (evs : List REvent) (i : Nat),
        (dialParallelActions evs)[i]? = some .fallbackStart →
        ∃ j, j < i ∧ (dialParallelActions evs)[j]? = some .primaryStart := by
  constructor
  · intro delay evs ts hv hnp heq
    exact timedRace_bound evs delay delay zeroResult zeroResult ts le_rfl hv
      hnp heq
  · intro evs i hi
    cases i with
    | zero => simp [dialParallelActions] at hi
    | succ i => exact ⟨0, Nat.succ_pos i, by simp [dialParallelActions]⟩

/-- Witness for C7: a timer fire at exactly the 300ms default delay yields
a fallback start no earlier than the delay, and in the resulting action
sequence the primary start precedes the fallback start. -/
theorem dialParallel_fallback_head_start_witness :
    ((300000000 : Int) ≤ 300000000)
    ∧ ∃ j, j < 1 ∧ (dialParallelActions [.timer])[j]? = some .primaryStart := by
  constructor
  · exact dialParallel_fallback_head_start.1 300000000 [⟨300000000, .timer⟩]
      300000000 (by simp [timerValid]) trivial rfl
  · exact dialParallel_fallback_head_start.2 [.timer] 1 (by decide)

end GoSrt
